import Mathlib

/-!
Verification of the packit-service dispatch layer (`packit_service/worker/jobs.py`)
and status reporter (`packit_service/worker/reporting.py`) against its
natural-language specification.

The Python source is shallowly embedded: pure functions become Lean functions,
the effects of the dispatcher (submission of Celery signature groups) and the
status reporter (forge API calls) are made explicit as returned action traces.
External collaborators that live outside the verified sources — the handler
registry tables (`MAP_JOB_TYPE_TO_HANDLER`, `MAP_REQUIRED_JOB_TYPE_TO_HANDLER`,
`SUPPORTED_EVENTS_FOR_HANDLER`, `MAP_COMMENT_TO_HANDLER`), the allow-list gate
(`Allowlist.check_and_report`), event parsers and the forge client — are
parameters of the embedded functions, so every theorem quantifies over them.
-/

namespace PackitService

/-- Handler classes (`JobHandler` subclasses) are identified by an abstract code. -/
abbrev HandlerKind := Nat

/-- `JobType` enum values are identified by an abstract code. -/
abbrev JobType := Nat

/-- `JobConfigTriggerType` enum values are identified by an abstract code. -/
abbrev TriggerType := Nat

/-- The concrete event classes that `jobs.py` distinguishes by `isinstance`;
all other `Event` subclasses are collapsed into `other`. -/
inductive EventKind where
  | installation
  | issueComment
  | issueCommentGitlab
  | mergeRequestCommentGitlab
  | pullRequestCommentGithub
  | pullRequestCommentPagure
  | pullRequestLabelPagure
  | other (code : Nat)
deriving DecidableEq, Repr

/-- The `isinstance(event, (PullRequestCommentGithubEvent, PullRequestCommentPagureEvent,
IssueCommentEvent, MergeRequestCommentGitlabEvent, IssueCommentGitlabEvent))` check
in `get_handlers_for_event`. -/
def isCommentEvent : EventKind → Bool
  | .pullRequestCommentGithub => true
  | .pullRequestCommentPagure => true
  | .issueComment => true
  | .mergeRequestCommentGitlab => true
  | .issueCommentGitlab => true
  | _ => false

/-- One configured job (`packit.config.JobConfig`): job type, trigger type, and the
rest of the configuration collapsed into an opaque code (Python dataclass equality
compares all fields, so two configs may share type and trigger yet differ). -/
structure JobConfig where
  type : JobType
  trigger : TriggerType
  meta : Nat
deriving DecidableEq, Repr

/-- `packit.config.PackageConfig`: the ordered list of configured jobs. -/
structure PackageConfig where
  jobs : List JobConfig
deriving DecidableEq, Repr

/-- The surface of a parsed `Event` object used by `jobs.py`: its concrete class
(`kind`), `db_trigger.job_config_trigger_type`, the raw comment text (only consulted
for comment events) and the resolved `package_config`. -/
structure Event where
  kind : EventKind
  trigger : TriggerType
  comment : String
  packageConfig : Option PackageConfig
deriving DecidableEq, Repr

/-- The static handler registry of `packit_service.worker.handlers.abstract`
(declared outside the verified sources), abstracted as total maps.
`mapCommentToHandler` is a `defaultdict(set)` in Python, hence total with
default `[]`. -/
structure Registry where
  mapJobTypeToHandler : JobType → List HandlerKind
  mapRequiredJobTypeToHandler : JobType → List HandlerKind
  supportedEventsForHandler : HandlerKind → EventKind → Bool
  mapCommentToHandler : String → List HandlerKind

/-- `packit_service.worker.result.TaskResults` as built by `TaskResults.create_from`. -/
structure TaskResults where
  success : Bool
  msg : String
  job_config : Option JobConfig
  event : Event
deriving DecidableEq, Repr

/-- A Celery task signature `handler_kls.get_signature(event=…, job=…)`. -/
structure Sig where
  handler : HandlerKind
  event : Event
  job : Option JobConfig
deriving DecidableEq, Repr

/-! ## Comment command parser (`get_packit_commands_from_comment`) -/

/-- The whitespace characters recognized by Python `str.split()` / `str.strip()`
(restricted to the ASCII range; comments are ASCII in all claims). -/
def pyIsSpace (c : Char) : Bool :=
  c = ' ' || c = '\t' || c = '\n' || c = '\r' || c = '\x0b' || c = '\x0c'

/-- Python `str.strip()`. -/
def pyStrip (s : List Char) : List Char :=
  ((s.dropWhile pyIsSpace).reverse.dropWhile pyIsSpace).reverse

/-- Python `comment[comment.find(pat):]`, fused: `some` of the suffix of `s`
starting at the first occurrence of `pat`, or `none` when `find` returns `-1`. -/
def findTail (pat : List Char) : List Char → Option (List Char)
  | [] => if pat = [] then some [] else none
  | c :: cs => if pat.isPrefixOf (c :: cs) then some (c :: cs) else findTail pat cs

/-- Python `s.split(maxsplit=n)` (whitespace splitting): at most `n` splits are
performed; the final element keeps the rest of the string verbatim after its
leading whitespace is consumed, exactly as the CPython function `split_whitespace` does. -/
def splitWs (maxsplit : Nat) (s : List Char) : List (List Char) :=
  let s1 := s.dropWhile pyIsSpace
  if s1 = [] then []
  else
    match maxsplit with
    | 0 => [s1]
    | m + 1 =>
      s1.takeWhile (fun ch => !(pyIsSpace ch)) ::
        splitWs m (s1.dropWhile (fun ch => !(pyIsSpace ch)))

/-- `REQUESTED_PULL_REQUEST_COMMENT = "/packit"`. -/
def REQUESTED_PULL_REQUEST_COMMENT : List Char := ['/', 'p', 'a', 'c', 'k', 'i', 't']

/-- `get_packit_commands_from_comment` on the character list of the comment.
Mirrors the source: empty-after-strip check, `find` of the marker,
`split(maxsplit=3)` of the suffix, exact-marker check, non-empty-command check.
(The `[]` arm of the split can never be reached: the suffix returned by
`findTail` starts with the non-blank marker.) -/
def get_packit_commands_chars (comment : List Char) : List (List Char) :=
  if pyStrip comment = [] then []
  else
    match findTail REQUESTED_PULL_REQUEST_COMMENT comment with
    | none => []
    | some tail =>
      match splitWs 3 tail with
      | [] => []
      | packit_mark :: packit_command =>
        if packit_mark ≠ REQUESTED_PULL_REQUEST_COMMENT then []
        else if packit_command = [] then []
        else packit_command

/-- `get_packit_commands_from_comment(comment: str) -> List[str]`. -/
def get_packit_commands_from_comment (comment : String) : List String :=
  (get_packit_commands_chars comment.data).map (fun l => String.mk l)

/-! ## Matcher and resolver (`get_handlers_for_comment`, `get_handlers_for_event`,
`get_config_for_handler_kls`) -/

/-- `get_handlers_for_comment`: the commands of the comment, then the registry map
`MAP_COMMENT_TO_HANDLER[commands[0]]` (a `defaultdict(set)`, so an unknown
command yields the empty set). -/
def get_handlers_for_comment (R : Registry) (comment : String) : List HandlerKind :=
  match get_packit_commands_from_comment comment with
  | [] => []
  | c :: _ => R.mapCommentToHandler c

/-- `get_handlers_for_event`: trigger-filter the configured jobs with duplicate
removal; for comment events compute the comment-derived restriction set
(`None` for non-comment events); collect, over the union of direct and
required-by handlers of the type of each surviving job, those supporting the
class and allowed by the restriction set.  The Python result is a `set`; it is
embedded as the first-insertion-ordered duplicate-free list. -/
def get_handlers_for_event (R : Registry) (event : Event) (package_config : PackageConfig) :
    List HandlerKind :=
  let jobs_matching_trigger := package_config.jobs.foldl
    (fun acc job => if job.trigger = event.trigger ∧ job ∉ acc then acc ++ [job] else acc) []
  let handlers_triggered_by_comment : Option (List HandlerKind) :=
    if isCommentEvent event.kind then some (get_handlers_for_comment R event.comment) else none
  jobs_matching_trigger.foldl
    (fun acc job =>
      (R.mapJobTypeToHandler job.type ++ R.mapRequiredJobTypeToHandler job.type).foldl
        (fun acc2 handler =>
          if R.supportedEventsForHandler handler event.kind = true
              ∧ (handlers_triggered_by_comment = none
                 ∨ handler ∈ handlers_triggered_by_comment.getD [])
              ∧ handler ∉ acc2
          then acc2 ++ [handler] else acc2)
        acc)
    []

/-- `get_config_for_handler_kls`: trigger-filter the configured jobs (this
function, unlike `get_handlers_for_event`, performs no duplicate removal), keep
those whose type maps directly to the handler; if none, fall back to those whose
type lists the handler as required-by. -/
def get_config_for_handler_kls (R : Registry) (handler_kls : HandlerKind) (event : Event)
    (package_config : PackageConfig) : List JobConfig :=
  let jobs_matching_trigger := package_config.jobs.foldl
    (fun acc job => if job.trigger = event.trigger then acc ++ [job] else acc) []
  let matching_jobs := jobs_matching_trigger.foldl
    (fun acc job =>
      if handler_kls ∈ R.mapJobTypeToHandler job.type then acc ++ [job] else acc) []
  if matching_jobs = [] then
    jobs_matching_trigger.foldl
      (fun acc job =>
        if handler_kls ∈ R.mapRequiredJobTypeToHandler job.type then acc ++ [job] else acc)
      matching_jobs
  else matching_jobs

/-- Modelled from the spec: §4.3 as worded, with step 1 performed "as in 4.2
step 1", i.e. *with* duplicate removal ("preserving original order and removing
exact duplicates"), then the direct pass and, only if that is empty, the
required-by fallback pass.  This is the Config Resolver as the spec words it;
the version in the code is `get_config_for_handler_kls` above, which does not remove
duplicates. -/
def configs_for_spec (R : Registry) (handler_kls : HandlerKind) (event : Event)
    (package_config : PackageConfig) : List JobConfig :=
  let jobs_matching_trigger := (package_config.jobs.filter
    (fun job => job.trigger = event.trigger)).dedup
  let direct := jobs_matching_trigger.filter
    (fun job => handler_kls ∈ R.mapJobTypeToHandler job.type)
  if direct = [] then
    jobs_matching_trigger.filter
      (fun job => handler_kls ∈ R.mapRequiredJobTypeToHandler job.type)
  else direct

/-! ## Dispatcher (`SteveJobs.process_jobs`, `SteveJobs.process_message`)

The allow-list gate `Allowlist.check_and_report(event, project, service_config,
job_configs)` is external; within one `process_jobs` call the event, project and
service config are fixed, so it is abstracted as `check : List JobConfig → Bool`
(`true` = allow-listed).  Submissions of Celery signature groups
(`group(signatures).apply_async()`) are recorded in a returned trace, in
submission order. -/

/-- The `for handler_kls in handler_classes` loop of `process_jobs`, carrying the
loop variable `job_configs` (reused after the loop) and the trace of submitted
signature groups.  `Sum.inl` is the early `return` on allow-list rejection;
`Sum.inr` is normal loop exit with the final value of `job_configs`. -/
def run_handlers (R : Registry) (check : List JobConfig → Bool) (event : Event)
    (package_config : PackageConfig) :
    List HandlerKind → List JobConfig → List (List Sig) →
    (List TaskResults ⊕ List JobConfig) × List (List Sig)
  | [], job_configs, groups => (Sum.inr job_configs, groups)
  | handler_kls :: rest, _, groups =>
    let job_configs := get_config_for_handler_kls R handler_kls event package_config
    if check job_configs then
      run_handlers R check event package_config rest job_configs
        (groups ++ [job_configs.map (fun job_config => Sig.mk handler_kls event (some job_config))])
    else
      (Sum.inl (job_configs.map (fun job_config =>
        TaskResults.mk false "Account is not allowlisted!" (some job_config) event)), groups)

/-- `SteveJobs.process_jobs`: returns the `TaskResults` list together with the
trace of signature groups submitted to the execution backend. -/
def process_jobs (R : Registry) (check : List JobConfig → Bool) (event : Event) :
    List TaskResults × List (List Sig) :=
  match event.packageConfig with
  | none =>
    ([TaskResults.mk true "No packit config found in the repository." none event], [])
  | some package_config =>
    let handler_classes := get_handlers_for_event R event package_config
    if handler_classes = [] then ([], [])
    else
      match run_handlers R check event package_config handler_classes [] [] with
      | (Sum.inl processing_results, groups) => (processing_results, groups)
      | (Sum.inr job_configs, groups) =>
        (job_configs.map (fun job_config =>
          TaskResults.mk true "Job created." (some job_config) event), groups)

/-- The `HandlerKind` codes of the two handler classes that `process_message`
schedules directly, bypassing `process_jobs`. -/
def GithubAppInstallationHandler : HandlerKind := 901

/-- See `GithubAppInstallationHandler`. -/
def PagurePullRequestLabelHandler : HandlerKind := 902

/-- The external collaborators consulted by `process_message` for one message:
the `topic` attributes of all registered handler classes, the outcome of the
(external) event parser, and the answers of the event object for `pre_check()` /
`project` / `project.is_private()` / enabled-private-namespace answers. -/
structure MessageCtx where
  topics : List (Option String)
  parsedEvent : Option Event
  preCheckOk : Bool
  hasProject : Bool
  isPrivate : Bool
  namespaceEnabled : Bool

/-- The body of `process_message` after the topic pre-filter. -/
def process_message_body (R : Registry) (check : List JobConfig → Bool) (ctx : MessageCtx) :
    List TaskResults × List (List Sig) :=
  match ctx.parsedEvent with
  | none => ([], [])
  | some event_object =>
    if ¬ (ctx.preCheckOk = true) then ([], [])
    else if ctx.hasProject = true ∧ ctx.isPrivate = true ∧ ¬ (ctx.namespaceEnabled = true) then
      ([], [])
    else
      let step : Option (List TaskResults) × List (List Sig) :=
        if event_object.kind = .installation then
          (none, [[Sig.mk GithubAppInstallationHandler event_object none]])
        else if event_object.kind = .pullRequestLabelPagure then
          (none, [[Sig.mk PagurePullRequestLabelHandler event_object none]])
        else
          let r := process_jobs R check event_object
          (some r.1, r.2)
      match step with
      | (none, groups) =>
        ([TaskResults.mk true "Job created." none event_object], groups)
      | (some processing_results, groups) => (processing_results, groups)

/-- `SteveJobs.process_message`: topic pre-filter, then `process_message_body`.
As in `process_jobs`, the second component is the trace of submitted signature
groups. -/
def process_message (R : Registry) (check : List JobConfig → Bool) (ctx : MessageCtx)
    (topic : Option String) : List TaskResults × List (List Sig) :=
  match topic with
  | some t =>
    if some t ∈ ctx.topics then process_message_body R check ctx else ([], [])
  | none => process_message_body R check ctx

/-! ## Status reporter (`StatusReporter` in `reporting.py`)

The forge client is external.  One `set_status` call makes at most three API
calls — `set_commit_status` on the project-with-commit, a `commit_comment`
fallback, and the PR `set_flag` mirror — which are recorded as an `Action`
trace in call order.  The outcome of the `set_commit_status` attempt (success,
`gitlab.exceptions.GitlabCreateError` with a response code, or
`github.GithubException`) and the answers of the PR object (`hasattr(pr,
"set_flag")`, `pr.head_commit`) are inputs, bundled in `StatusEnv`.  The second
component of the result is `some code` when the `GitlabCreateError` is
re-raised to the caller, `none` when `set_status` returns normally. -/

/-- `ogr.abstract.CommitStatus`, reduced to the `.name` used by the reporter. -/
structure CommitStatus where
  name : String
deriving DecidableEq, Repr

/-- A forge API call made by the status reporter.  `setFlag` also passes a
`uid` derived as the md5 of the check name; the hash is external and not
modelled (no claim mentions it). -/
inductive Action where
  | setCommitStatus (commit : String) (state : CommitStatus) (url : String)
      (description : String) (check_name : String)
  | commitComment (commit : String) (body : String)
  | setFlag (username : String) (comment : String) (url : String) (status : CommitStatus)
deriving DecidableEq, Repr

/-- The behaviour of the external `set_commit_status` call. -/
inductive PostOutcome where
  | ok
  | gitlabCreateError (response_code : Nat)
  | githubException
deriving DecidableEq, Repr

/-- External-collaborator answers for one `set_status` call:
whether `isinstance(self.project, PagureProject)`, what the
`set_commit_status` attempt does, and the `set_flag`
capability of the PR object and head commit. -/
structure StatusEnv where
  projectIsPagure : Bool
  postOutcome : PostOutcome
  prHasSetFlag : Bool
  prHeadCommit : String
deriving DecidableEq, Repr

/-- The per-instance state of `StatusReporter` used by `set_status`. -/
structure StatusReporter where
  commit_sha : String
  pr_id : Option Nat
deriving DecidableEq, Repr

/-- The body built by `StatusReporter.__add_commit_comment_with_status`. -/
def commit_comment_body (state : CommitStatus) (description check_name url : String) : String :=
  "- name: " ++ check_name ++ "\n" ++
  "- state: " ++ state.name ++ "\n" ++
  "- url: " ++ (if url = "" then "not provided" else url) ++
  "\n\n" ++ description

/-- `StatusReporter.__set_pull_request_status`: no-op when `pr_id is None`;
otherwise sets the flag exactly when the PR object has `set_flag` and its
`head_commit` equals the reported commit. -/
def set_pull_request_status (env : StatusEnv) (rep : StatusReporter)
    (check_name description url : String) (state : CommitStatus) : List Action :=
  match rep.pr_id with
  | none => []
  | some _ =>
    if env.prHasSetFlag = true ∧ env.prHeadCommit = rep.commit_sha then
      [Action.setFlag check_name description url state]
    else []

/-- `StatusReporter.set_status`: Pagure empty-url fix-up; `set_commit_status`
attempt; on `GitlabCreateError` comment fallback unless the code is 400, and
re-raise when the code is outside `{400, 403, 404}` (skipping the PR mirror);
on `GithubException` always a comment fallback; the PR mirror runs whenever no
exception propagates. -/
def set_status (env : StatusEnv) (rep : StatusReporter) (state : CommitStatus)
    (description check_name url : String) : List Action × Option Nat :=
  let url := if url = "" ∧ env.projectIsPagure = true then
      "https://wiki.centos.org/Manuals/ReleaseNotes/CentOSStream" else url
  let attempt := Action.setCommitStatus rep.commit_sha state url description check_name
  match env.postOutcome with
  | .ok =>
    (attempt :: set_pull_request_status env rep check_name description url state, none)
  | .gitlabCreateError response_code =>
    let fallback := if response_code ≠ 400 then
        [Action.commitComment rep.commit_sha (commit_comment_body state description check_name url)]
      else []
    if response_code ∉ ([400, 403, 404] : List Nat) then
      (attempt :: fallback, some response_code)
    else
      (attempt :: (fallback ++ set_pull_request_status env rep check_name description url state),
       none)
  | .githubException =>
    (attempt ::
      (Action.commitComment rep.commit_sha (commit_comment_body state description check_name url) ::
        set_pull_request_status env rep check_name description url state),
     none)

/-! ## Predicates and concrete instances used by the claims -/

/-- A nonempty run of whitespace characters. -/
def IsWsRun (w : List Char) : Prop := w ≠ [] ∧ ∀ c ∈ w, pyIsSpace c = true

/-- A nonempty run of non-whitespace characters (one whitespace-delimited token). -/
def IsToken (t : List Char) : Prop := t ≠ [] ∧ ∀ c ∈ t, pyIsSpace c = false

/-- A registry whose only handler `7` is directly mapped from every job type and
supports every event class; used to evaluate the dispatcher on concrete inputs. -/
def directRegistry : Registry where
  mapJobTypeToHandler := fun _ => [7]
  mapRequiredJobTypeToHandler := fun _ => []
  supportedEventsForHandler := fun _ _ => true
  mapCommentToHandler := fun _ => []

/-- A job configuration with type 0, trigger 0. -/
def job00 : JobConfig := ⟨0, 0, 0⟩

/-- A job configuration with type 0, trigger 1. -/
def job01 : JobConfig := ⟨0, 1, 0⟩

/-- An event of an unclassified kind, trigger 0, whose package configuration
declares a single job with trigger 1: the derived trigger type matches zero
job configurations. -/
def eventNoTriggerMatch : Event := ⟨.other 0, 0, "", some ⟨[job01]⟩⟩

/-- An event of an unclassified kind, trigger 0, whose package configuration
declares the same job twice (duplicate entries), both matching the trigger. -/
def eventDupJobs : Event := ⟨.other 0, 0, "", some ⟨[job00, job00]⟩⟩

/-- A registry whose every job type maps directly to the two handlers `3` and
`4`, both supporting every event class. -/
def twoHandlerRegistry : Registry where
  mapJobTypeToHandler := fun _ => [3, 4]
  mapRequiredJobTypeToHandler := fun _ => []
  supportedEventsForHandler := fun _ _ => true
  mapCommentToHandler := fun _ => []

/-- An event of an unclassified kind, trigger 0, with a single matching job;
under `twoHandlerRegistry` it matches the two handlers `3` and `4`. -/
def eventTwoHandlers : Event := ⟨.other 0, 0, "", some ⟨[job00]⟩⟩

/-- A message context whose parsed event is `eventNoTriggerMatch` and which
passes the pre-check and privacy gates. -/
def ctxNoTriggerMatch : MessageCtx where
  topics := []
  parsedEvent := some eventNoTriggerMatch
  preCheckOk := true
  hasProject := true
  isPrivate := false
  namespaceEnabled := false

/-- A reporter for commit `"abc"` on pull request 1. -/
def repAbc : StatusReporter := ⟨"abc", some 1⟩

/-- An environment in which the commit-status post fails with `GitlabCreateError`
code 500, while the PR exposes `set_flag` and its head commit is the reported
commit — the mirror conditions all hold. -/
def env500 : StatusEnv := ⟨false, .gitlabCreateError 500, true, "abc"⟩

/-- An environment in which the commit-status post succeeds and the mirror
conditions all hold. -/
def envOk : StatusEnv := ⟨false, .ok, true, "abc"⟩

/-- An environment in which the commit-status post fails with `GitlabCreateError`
code 403. -/
def env403 : StatusEnv := ⟨false, .gitlabCreateError 403, true, "abc"⟩

/-- A commit state named success. -/
def stSuccess : CommitStatus := ⟨"success"⟩

/-! ## Helper lemmas -/

/-- A fold whose step never changes any accumulator on elements of the list is
the identity. -/
theorem foldl_fixed_of_mem {α β : Type} (f : α → β → α) :
    ∀ (l : List β), (∀ acc x, x ∈ l → f acc x = acc) → ∀ acc, List.foldl f acc l = acc := by
  intro l
  induction l with
  | nil => intro _ acc; rfl
  | cons x xs ih =>
    intro h acc
    rw [List.foldl_cons, h acc x (List.mem_cons_self x xs)]
    exact ih (fun a y hy => h a y (List.mem_cons_of_mem x hy)) acc

/-- A fold whose step never changes the accumulator is the identity. -/
theorem foldl_fixed_of_step {α β : Type} (f : α → β → α) (hf : ∀ acc x, f acc x = acc) :
    ∀ (l : List β) (acc : α), List.foldl f acc l = acc := by
  intro l
  induction l with
  | nil => intro acc; rfl
  | cons x xs ih => intro acc; rw [List.foldl_cons, hf acc x, ih acc]

/-- The append-accumulating conditional fold is filtering. -/
theorem foldl_if_append {α : Type} (p : α → Prop) [DecidablePred p] :
    ∀ (l acc : List α),
      List.foldl (fun acc x => if p x then acc ++ [x] else acc) acc l
        = acc ++ l.filter (fun x => decide (p x)) := by
  intro l
  induction l with
  | nil => intro acc; simp
  | cons x xs ih =>
    intro acc
    rw [List.foldl_cons, List.filter_cons]
    by_cases hx : p x
    · rw [if_pos hx, ih, if_pos (by simpa using hx), List.append_assoc]
      rfl
    · rw [if_neg hx, ih, if_neg (by simpa using hx)]

/-- Unfolding of `splitWs` at a positive split budget. -/
theorem splitWs_succ (m : Nat) (s : List Char) :
    splitWs (m + 1) s =
      (if s.dropWhile pyIsSpace = [] then []
       else (s.dropWhile pyIsSpace).takeWhile (fun ch => !(pyIsSpace ch)) ::
         splitWs m ((s.dropWhile pyIsSpace).dropWhile (fun ch => !(pyIsSpace ch)))) := rfl

/-- Unfolding of `splitWs` at an exhausted split budget. -/
theorem splitWs_zero (s : List Char) :
    splitWs 0 s = (if s.dropWhile pyIsSpace = [] then [] else [s.dropWhile pyIsSpace]) := rfl

/-- The marker is a token. -/
theorem marker_isToken : IsToken REQUESTED_PULL_REQUEST_COMMENT := by
  constructor
  · decide
  · decide

/-- Dropping leading whitespace removes a whitespace run wholesale. -/
theorem dropWhile_ws_append {w s : List Char} (hw : ∀ c ∈ w, pyIsSpace c = true) :
    (w ++ s).dropWhile pyIsSpace = s.dropWhile pyIsSpace :=
  List.dropWhile_append_of_pos hw

/-- Dropping leading whitespace stops at a token. -/
theorem dropWhile_ws_token {t : List Char} (ht : IsToken t) (s : List Char) :
    (t ++ s).dropWhile pyIsSpace = t ++ s := by
  obtain ⟨hne, hall⟩ := ht
  cases t with
  | nil => exact absurd rfl hne
  | cons c cs =>
    rw [List.cons_append, List.dropWhile_cons_of_neg]
    simp [hall c (List.mem_cons_self c cs)]

/-- Taking the leading token of `t ++ w ++ s` yields exactly `t` when `w` starts
with whitespace. -/
theorem takeWhile_token_append {t w s : List Char} (ht : IsToken t) (hw : IsWsRun w) :
    (t ++ (w ++ s)).takeWhile (fun ch => !(pyIsSpace ch)) = t := by
  rw [List.takeWhile_append_of_pos (by intro a ha; simp [ht.2 a ha])]
  obtain ⟨hwne, hwall⟩ := hw
  cases w with
  | nil => exact absurd rfl hwne
  | cons c cs =>
    rw [List.cons_append, List.takeWhile_cons_of_neg (by simp [hwall c (List.mem_cons_self c cs)])]
    simp

/-- Dropping the leading token of `t ++ w ++ s` leaves `w ++ s` when `w` starts
with whitespace. -/
theorem dropWhile_token_append {t w s : List Char} (ht : IsToken t) (hw : IsWsRun w) :
    (t ++ (w ++ s)).dropWhile (fun ch => !(pyIsSpace ch)) = w ++ s := by
  rw [List.dropWhile_append_of_pos (by intro a ha; simp [ht.2 a ha])]
  obtain ⟨hwne, hwall⟩ := hw
  cases w with
  | nil => exact absurd rfl hwne
  | cons c cs =>
    rw [List.cons_append, List.dropWhile_cons_of_neg (by simp [hwall c (List.mem_cons_self c cs)])]

/-- A successful `isPrefixOf` test exhibits the tested list as pattern plus rest. -/
theorem isPrefixOf_exists_append {α : Type} [BEq α] [LawfulBEq α] :
    ∀ {pat s : List α}, pat.isPrefixOf s = true → ∃ rest, s = pat ++ rest := by
  intro pat
  induction pat with
  | nil => intro s _; exact ⟨s, rfl⟩
  | cons a as ih =>
    intro s h
    cases s with
    | nil => simp [List.isPrefixOf] at h
    | cons b bs =>
      simp only [List.isPrefixOf, Bool.and_eq_true, beq_iff_eq] at h
      obtain ⟨rest, hr⟩ := ih h.2
      exact ⟨rest, by rw [List.cons_append, ← hr, h.1]⟩

/-- `findTail` returns a suffix of its input that starts with the pattern. -/
theorem findTail_eq_some {pat : List Char} :
    ∀ {s t : List Char}, findTail pat s = some t →
      pat.isPrefixOf t = true ∧ ∃ pre, s = pre ++ t := by
  intro s
  induction s with
  | nil =>
    intro t h
    by_cases hp : pat = []
    · simp only [findTail, hp, if_pos] at h
      cases h
      exact ⟨by simp [hp, List.isPrefixOf], ⟨[], rfl⟩⟩
    · simp [findTail, hp] at h
  | cons c cs ih =>
    intro t h
    by_cases hp : pat.isPrefixOf (c :: cs) = true
    · simp only [findTail, if_pos hp] at h
      cases h
      exact ⟨hp, ⟨[], rfl⟩⟩
    · simp only [findTail, if_neg hp] at h
      obtain ⟨h1, pre, h2⟩ := ih h
      exact ⟨h1, ⟨c :: pre, by rw [h2]; rfl⟩⟩

/-- If stripping leaves nothing, every character was whitespace. -/
theorem all_ws_of_pyStrip_eq_nil {s : List Char} (h : pyStrip s = []) :
    ∀ c ∈ s, pyIsSpace c = true := by
  intro c hc
  unfold pyStrip at h
  rw [List.reverse_eq_nil_iff, List.dropWhile_eq_nil_iff] at h
  have hdrop : ∀ x ∈ s.dropWhile pyIsSpace, pyIsSpace x = true := by
    intro x hx
    exact h x (by simpa using hx)
  rcases List.mem_append.mp
      ((List.takeWhile_append_dropWhile pyIsSpace s ▸ hc : c ∈ _)) with htk | hdr
  · exact List.mem_takeWhile_imp htk
  · exact hdrop c hdr

/-- A comment that contains the marker somewhere does not strip to nothing. -/
theorem pyStrip_ne_nil_of_findTail {s t : List Char}
    (h : findTail REQUESTED_PULL_REQUEST_COMMENT s = some t) : pyStrip s ≠ [] := by
  intro hnil
  obtain ⟨hpre, pre, hs⟩ := findTail_eq_some h
  obtain ⟨rest, ht⟩ := isPrefixOf_exists_append hpre
  have hmem : '/' ∈ s := by
    rw [hs, ht]
    simp [REQUESTED_PULL_REQUEST_COMMENT]
  have := all_ws_of_pyStrip_eq_nil hnil '/' hmem
  simp [pyIsSpace] at this

/-- Computation of `split(maxsplit=3)` on a marker followed by three-or-more
further tokens: the returned fourth element is the verbatim remainder. -/
theorem splitWs_three_of_four_tokens {t0 w1 t1 w2 t2 w3 r : List Char}
    (ht0 : IsToken t0) (hw1 : IsWsRun w1) (ht1 : IsToken t1) (hw2 : IsWsRun w2)
    (ht2 : IsToken t2) (hw3 : IsWsRun w3) (hr : r ≠ [])
    (hrhead : ∀ c, r.head? = some c → pyIsSpace c = false) :
    splitWs 3 (t0 ++ (w1 ++ (t1 ++ (w2 ++ (t2 ++ (w3 ++ r)))))) = [t0, t1, t2, r] := by
  have hrd : r.dropWhile pyIsSpace = r := by
    cases r with
    | nil => rfl
    | cons c cs =>
      rw [List.dropWhile_cons_of_neg]
      simp [hrhead c rfl]
  have h3 : (3 : Nat) = 2 + 1 := rfl
  have h2 : (2 : Nat) = 1 + 1 := rfl
  have h1 : (1 : Nat) = 0 + 1 := rfl
  rw [h3, splitWs_succ]
  rw [dropWhile_ws_token ht0]
  rw [if_neg (by simp [ht0.1])]
  rw [takeWhile_token_append ht0 hw1, dropWhile_token_append ht0 hw1]
  rw [h2, splitWs_succ]
  rw [dropWhile_ws_append hw1.2, dropWhile_ws_token ht1]
  rw [if_neg (by simp [ht1.1])]
  rw [takeWhile_token_append ht1 hw2, dropWhile_token_append ht1 hw2]
  rw [h1, splitWs_succ]
  rw [dropWhile_ws_append hw2.2, dropWhile_ws_token ht2]
  rw [if_neg (by simp [ht2.1])]
  rw [takeWhile_token_append ht2 hw3, dropWhile_token_append ht2 hw3]
  rw [splitWs_zero]
  rw [dropWhile_ws_append hw3.2, hrd]
  rw [if_neg hr]

/-- Reduction of the parser once the strip check and the marker search are known. -/
theorem get_packit_commands_chars_of_found {comment tail : List Char}
    (hstrip : pyStrip comment ≠ [])
    (hfind : findTail REQUESTED_PULL_REQUEST_COMMENT comment = some tail) :
    get_packit_commands_chars comment =
      (match splitWs 3 tail with
       | [] => []
       | packit_mark :: packit_command =>
         if packit_mark ≠ REQUESTED_PULL_REQUEST_COMMENT then []
         else if packit_command = [] then []
         else packit_command) := by
  unfold get_packit_commands_chars
  rw [if_neg hstrip, hfind]

/-! ## Claims about the comment command parser -/

/-- Claim C5: the comment command parser maps `"/packit build"` to `["build"]`,
`"random text"` to `[]`, `"/packitbuild"` to `[]`, and `"/packit a b c d"` to
`["a", "b", "c d"]`; and in general, whenever the comment contains the
standalone marker followed by four or more whitespace-separated tokens, the
third argument is the entire remainder of the comment verbatim, as one string. -/
theorem c5_comment_command_parsing :
    get_packit_commands_from_comment "/packit build" = ["build"] ∧
    get_packit_commands_from_comment "random text" = [] ∧
    get_packit_commands_from_comment "/packitbuild" = [] ∧
    get_packit_commands_from_comment "/packit a b c d" = ["a", "b", "c d"] ∧
    (∀ (comment : String) (w1 t1 w2 t2 w3 r : List Char),
      findTail REQUESTED_PULL_REQUEST_COMMENT comment.data
          = some (REQUESTED_PULL_REQUEST_COMMENT ++ (w1 ++ (t1 ++ (w2 ++ (t2 ++ (w3 ++ r)))))) →
      IsWsRun w1 → IsToken t1 → IsWsRun w2 → IsToken t2 → IsWsRun w3 →
      r ≠ [] → (∀ c, r.head? = some c → pyIsSpace c = false) →
      get_packit_commands_from_comment comment = [String.mk t1, String.mk t2, String.mk r]) := by
  refine ⟨by decide, by decide, by decide, by decide, ?_⟩
  intro comment w1 t1 w2 t2 w3 r hfind hw1 ht1 hw2 ht2 hw3 hr hrhead
  have hstrip := pyStrip_ne_nil_of_findTail hfind
  unfold get_packit_commands_from_comment
  rw [get_packit_commands_chars_of_found hstrip hfind]
  rw [splitWs_three_of_four_tokens marker_isToken hw1 ht1 hw2 ht2 hw3 hr hrhead]
  simp

/-- Witness for claim C5 at a comment with a multi-word trailing argument. -/
theorem c5_comment_command_parsing_witness :
    get_packit_commands_from_comment "x /packit do re mi fa" =
      [String.mk ['d', 'o'], String.mk ['r', 'e'], String.mk ['m', 'i', ' ', 'f', 'a']] :=
  c5_comment_command_parsing.2.2.2.2 "x /packit do re mi fa"
    [' '] ['d', 'o'] [' '] ['r', 'e'] [' '] ['m', 'i', ' ', 'f', 'a']
    (by decide) ⟨by decide, by decide⟩ ⟨by decide, by decide⟩ ⟨by decide, by decide⟩
    ⟨by decide, by decide⟩ ⟨by decide, by decide⟩ (by decide) (by decide)

/-- Counterexample to claim C6: in `"say/packit build"` the first occurrence of
the marker is embedded inside the longer whitespace-delimited word
`"say/packit"`, which does not equal the marker, yet the parser produces the
command `["build"]` rather than no command — only characters *after* the
marker occurrence matter to the exact-marker check. -/
theorem c6_counterexample :
    get_packit_commands_from_comment "say/packit build" = ["build"] ∧
    (["build"] : List String) ≠ [] := by
  exact ⟨by decide, by decide⟩

/-- Claim C6, amended: the parser produces no command exactly in the cases where
the token *starting at* the first marker occurrence and running to the next
whitespace differs from the marker (i.e. the marker is immediately followed by
a further non-whitespace character); non-whitespace characters preceding the
occurrence inside the same word do not suppress the command. -/
theorem c6_embedded_marker_amended (comment : String) (tail : List Char)
    (hfind : findTail REQUESTED_PULL_REQUEST_COMMENT comment.data = some tail)
    (hmark : tail.takeWhile (fun ch => !(pyIsSpace ch)) ≠ REQUESTED_PULL_REQUEST_COMMENT) :
    get_packit_commands_from_comment comment = [] := by
  have hstrip := pyStrip_ne_nil_of_findTail hfind
  obtain ⟨hpre, _⟩ := findTail_eq_some hfind
  obtain ⟨rest, hrest⟩ := isPrefixOf_exists_append hpre
  have htail : tail = '/' :: (['p', 'a', 'c', 'k', 'i', 't'] ++ rest) := by
    rw [hrest]; rfl
  have hdrop : tail.dropWhile pyIsSpace = tail := by
    rw [htail, List.dropWhile_cons_of_neg (by simp [pyIsSpace])]
  have htne : tail ≠ [] := by rw [htail]; simp
  unfold get_packit_commands_from_comment
  rw [get_packit_commands_chars_of_found hstrip hfind]
  rw [show (3 : Nat) = 2 + 1 from rfl, splitWs_succ, hdrop, if_neg htne]
  simp only [ne_eq]
  rw [if_pos hmark]
  rfl

/-- Witness for the amended claim C6. -/
theorem c6_embedded_marker_amended_witness :
    get_packit_commands_from_comment "/packitbuild x" = [] :=
  c6_embedded_marker_amended "/packitbuild x"
    (String.mk ['/', 'p', 'a', 'c', 'k', 'i', 't', 'b', 'u', 'i', 'l', 'd', ' ', 'x']).data
    (by decide) (by decide)

/-! ## Helper lemmas about the matcher and dispatcher -/

/-- Equation of `run_handlers` at the empty handler list. -/
theorem run_handlers_nil (R : Registry) (check : List JobConfig → Bool) (event : Event)
    (pc : PackageConfig) (jcs : List JobConfig) (groups : List (List Sig)) :
    run_handlers R check event pc [] jcs groups = (Sum.inr jcs, groups) := rfl

/-- Equation of `run_handlers` at a handler-list head. -/
theorem run_handlers_cons (R : Registry) (check : List JobConfig → Bool) (event : Event)
    (pc : PackageConfig) (h : HandlerKind) (rest : List HandlerKind)
    (jcs : List JobConfig) (groups : List (List Sig)) :
    run_handlers R check event pc (h :: rest) jcs groups =
      (if check (get_config_for_handler_kls R h event pc) = true then
        run_handlers R check event pc rest (get_config_for_handler_kls R h event pc)
          (groups ++ [(get_config_for_handler_kls R h event pc).map
            (fun job_config => Sig.mk h event (some job_config))])
      else
        (Sum.inl ((get_config_for_handler_kls R h event pc).map (fun job_config =>
          TaskResults.mk false "Account is not allowlisted!" (some job_config) event)),
         groups)) := rfl

/-- `process_jobs` once the package configuration is known to be present. -/
theorem process_jobs_of_config (R : Registry) (check : List JobConfig → Bool) (event : Event)
    (pc : PackageConfig) (hpc : event.packageConfig = some pc) :
    process_jobs R check event =
      (if get_handlers_for_event R event pc = [] then ([], [])
       else
         match run_handlers R check event pc (get_handlers_for_event R event pc) [] [] with
         | (Sum.inl processing_results, groups) => (processing_results, groups)
         | (Sum.inr job_configs, groups) =>
           (job_configs.map (fun job_config =>
             TaskResults.mk true "Job created." (some job_config) event), groups)) := by
  unfold process_jobs
  rw [hpc]

/-- When every matched handler passes the allow-list gate, the loop submits one
signature group per handler in order and exits with the job configurations of
the last handler. -/
theorem run_handlers_all_allowed (R : Registry) (check : List JobConfig → Bool) (event : Event)
    (pc : PackageConfig) :
    ∀ (hs : List HandlerKind) (hne : hs ≠ []),
      (∀ h ∈ hs, check (get_config_for_handler_kls R h event pc) = true) →
      ∀ (jcs : List JobConfig) (groups : List (List Sig)),
        run_handlers R check event pc hs jcs groups =
          (Sum.inr (get_config_for_handler_kls R (hs.getLast hne) event pc),
           groups ++ hs.map (fun h => (get_config_for_handler_kls R h event pc).map
             (fun job_config => Sig.mk h event (some job_config)))) := by
  intro hs
  induction hs with
  | nil => intro hne; exact absurd rfl hne
  | cons h t ih =>
    intro hne hall jcs groups
    rw [run_handlers_cons, if_pos (hall h (List.mem_cons_self h t))]
    cases t with
    | nil => rw [run_handlers_nil]; rfl
    | cons h2 t2 =>
      rw [ih (by simp) (fun k hk => hall k (List.mem_cons_of_mem h hk))]
      simp [List.getLast_cons_cons, List.append_assoc]

/-! ## Claims about the matcher and resolver -/

/-- Claim C10: for a comment-kind event whose comment text yields no recognized
packit command — the marker absent, malformed or bare (no commands), or the
first command word mapped to no registered handler set — `get_handlers_for_event`
returns the empty set, whatever the configured jobs and the registry say. -/
theorem c10_unrecognized_comment_suppresses_matching (R : Registry) (event : Event)
    (pc : PackageConfig) (hck : isCommentEvent event.kind = true)
    (hcomment : get_packit_commands_from_comment event.comment = [] ∨
      ∃ c rest, get_packit_commands_from_comment event.comment = c :: rest ∧
        R.mapCommentToHandler c = []) :
    get_handlers_for_event R event pc = [] := by
  have hcom : get_handlers_for_comment R event.comment = [] := by
    unfold get_handlers_for_comment
    rcases hcomment with h | ⟨c, rest, h1, h2⟩
    · rw [h]
    · rw [h1]
      exact h2
  unfold get_handlers_for_event
  simp only [hck, if_true, hcom]
  apply foldl_fixed_of_step
  intro acc job
  apply foldl_fixed_of_step
  intro acc2 handler
  rw [if_neg]
  rintro ⟨-, hor, -⟩
  rcases hor with hnone | hmem
  · exact Option.some_ne_none _ hnone
  · simp at hmem

/-- Witness for claim C10: a pull-request comment event with a matching job
configuration and a supporting handler, whose comment has no packit command. -/
theorem c10_unrecognized_comment_suppresses_matching_witness :
    get_handlers_for_event directRegistry ⟨.pullRequestCommentGithub, 0, "random text", none⟩
      ⟨[job00]⟩ = [] :=
  c10_unrecognized_comment_suppresses_matching directRegistry
    ⟨.pullRequestCommentGithub, 0, "random text", none⟩ ⟨[job00]⟩ (by decide)
    (Or.inl (by decide))

/-- Counterexample to claim C9: with the same job declared twice in the package
configuration (both occurrences matching the trigger and directly mapped to the
handler), `get_config_for_handler_kls` keeps the duplicate, whereas the
spec-worded resolver (trigger filtering "as in 4.2 step 1", i.e. with exact
duplicates removed) returns it once. -/
theorem c9_counterexample :
    get_config_for_handler_kls directRegistry 7 eventDupJobs ⟨[job00, job00]⟩ =
        [job00, job00] ∧
      configs_for_spec directRegistry 7 eventDupJobs ⟨[job00, job00]⟩ = [job00] ∧
      get_config_for_handler_kls directRegistry 7 eventDupJobs ⟨[job00, job00]⟩ ≠
        configs_for_spec directRegistry 7 eventDupJobs ⟨[job00, job00]⟩ := by
  exact ⟨by decide, by decide, by decide⟩

/-- Claim C9, amended: `get_config_for_handler_kls` trigger-filters the jobs
preserving order but *without* removing duplicates, then returns the
trigger-matching jobs whose type is directly mapped to the handler kind, and
only if that pass is empty the trigger-matching jobs whose type lists the
handler kind as required-by. -/
theorem c9_config_resolver_amended (R : Registry) (handler_kls : HandlerKind) (event : Event)
    (pc : PackageConfig) :
    get_config_for_handler_kls R handler_kls event pc =
      (let jobs_matching_trigger := pc.jobs.filter (fun job => job.trigger = event.trigger)
       let direct := jobs_matching_trigger.filter
         (fun job => handler_kls ∈ R.mapJobTypeToHandler job.type)
       if direct = [] then
         jobs_matching_trigger.filter
           (fun job => handler_kls ∈ R.mapRequiredJobTypeToHandler job.type)
       else direct) := by
  unfold get_config_for_handler_kls
  simp only [foldl_if_append (fun job : JobConfig => job.trigger = event.trigger),
    foldl_if_append (fun job : JobConfig => handler_kls ∈ R.mapJobTypeToHandler job.type),
    foldl_if_append (fun job : JobConfig => handler_kls ∈ R.mapRequiredJobTypeToHandler job.type),
    List.nil_append]
  split_ifs with hdirect
  · rw [hdirect, List.nil_append]
  · rfl

/-! ## Claims about `process_jobs` -/

/-- Counterexample to claim C3: for an event that carries a package
configuration whose jobs all miss the derived trigger type, `process_jobs`
returns the empty list — not a single success `TaskResults` — and submits
nothing. -/
theorem c3_counterexample :
    process_jobs directRegistry (fun _ => true) eventNoTriggerMatch = ([], []) ∧
      (process_jobs directRegistry (fun _ => true) eventNoTriggerMatch).1.length ≠ 1 := by
  exact ⟨by decide, by decide⟩

/-- Claim C3, amended: for every event that carries a package configuration but
whose derived trigger type matches zero of its job configurations,
`process_jobs` returns the empty list (and submits no signature group): the
single synthetic success result is produced only when the package configuration
is absent altogether. -/
theorem c3_no_trigger_match_amended (R : Registry) (check : List JobConfig → Bool)
    (event : Event) (pc : PackageConfig) (hpc : event.packageConfig = some pc)
    (hno : ∀ j ∈ pc.jobs, ¬(j.trigger = event.trigger)) :
    process_jobs R check event = ([], []) := by
  have hmatch : get_handlers_for_event R event pc = [] := by
    unfold get_handlers_for_event
    have hjmt : pc.jobs.foldl
        (fun acc job => if job.trigger = event.trigger ∧ job ∉ acc then acc ++ [job] else acc)
        [] = [] := by
      apply foldl_fixed_of_mem
      intro acc job hjob
      rw [if_neg]
      rintro ⟨h1, -⟩
      exact hno job hjob h1
    simp only [hjmt, List.foldl_nil]
  rw [process_jobs_of_config R check event pc hpc, if_pos hmatch]

/-- Witness for the amended claim C3. -/
theorem c3_no_trigger_match_amended_witness :
    process_jobs directRegistry (fun _ => true) eventNoTriggerMatch = ([], []) :=
  c3_no_trigger_match_amended directRegistry (fun _ => true) eventNoTriggerMatch ⟨[job01]⟩
    (by decide) (by decide)

/-- Claim C1: when the package configuration is present, at least two handler
kinds are matched and the allow-list gate rejects the job configurations of the
first handler kind processed, `process_jobs` returns exactly one failed
`TaskResults` (message "Account is not allowlisted!") per job configuration
resolved for that handler kind, and no signature group at all is submitted to
the execution backend — in particular none for any other matched handler kind. -/
theorem c1_allowlist_rejection_aborts (R : Registry) (check : List JobConfig → Bool)
    (event : Event) (pc : PackageConfig) (h1 h2 : HandlerKind) (rest : List HandlerKind)
    (hpc : event.packageConfig = some pc)
    (hmatch : get_handlers_for_event R event pc = h1 :: h2 :: rest)
    (hreject : check (get_config_for_handler_kls R h1 event pc) = false) :
    process_jobs R check event =
      ((get_config_for_handler_kls R h1 event pc).map (fun job_config =>
        TaskResults.mk false "Account is not allowlisted!" (some job_config) event),
       []) := by
  rw [process_jobs_of_config R check event pc hpc, hmatch]
  rw [if_neg (by simp)]
  rw [run_handlers_cons, if_neg (by simp [hreject])]

/-- Witness for claim C1: two matched handlers, gate rejecting. -/
theorem c1_allowlist_rejection_aborts_witness :
    process_jobs twoHandlerRegistry (fun _ => false) eventTwoHandlers =
      ((get_config_for_handler_kls twoHandlerRegistry 3 eventTwoHandlers ⟨[job00]⟩).map
        (fun job_config =>
          TaskResults.mk false "Account is not allowlisted!" (some job_config)
            eventTwoHandlers),
       []) :=
  c1_allowlist_rejection_aborts twoHandlerRegistry (fun _ => false) eventTwoHandlers
    ⟨[job00]⟩ 3 4 [] (by decide) (by decide) (by decide)

/-- Claim C2: when the package configuration is present, the matched handler
kinds are nonempty and every allow-list check accepts, `process_jobs` submits
one signature group per matched handler kind in processing order, yet the
returned list holds exactly one success `TaskResults` (message "Job created.")
per job configuration resolved for the *last* handler kind processed, and none
dedicated to any earlier handler kind. -/
theorem c2_results_reflect_last_handler (R : Registry) (check : List JobConfig → Bool)
    (event : Event) (pc : PackageConfig) (h : HandlerKind) (hs : List HandlerKind)
    (hpc : event.packageConfig = some pc)
    (hmatch : get_handlers_for_event R event pc = h :: hs)
    (hall : ∀ k ∈ h :: hs, check (get_config_for_handler_kls R k event pc) = true) :
    process_jobs R check event =
      ((get_config_for_handler_kls R ((h :: hs).getLast (by simp)) event pc).map
         (fun job_config => TaskResults.mk true "Job created." (some job_config) event),
       (h :: hs).map (fun k => (get_config_for_handler_kls R k event pc).map
         (fun job_config => Sig.mk k event (some job_config)))) := by
  rw [process_jobs_of_config R check event pc hpc, hmatch]
  rw [if_neg (by simp)]
  rw [run_handlers_all_allowed R check event pc (h :: hs) (by simp) hall]
  simp

/-- Witness for claim C2: two matched handlers, all checks passing; the result
list reflects only handler 4, the last processed, while both groups were
submitted. -/
theorem c2_results_reflect_last_handler_witness :
    process_jobs twoHandlerRegistry (fun _ => true) eventTwoHandlers =
      ((get_config_for_handler_kls twoHandlerRegistry (([3, 4] : List HandlerKind).getLast
          (by simp)) eventTwoHandlers ⟨[job00]⟩).map
         (fun job_config =>
           TaskResults.mk true "Job created." (some job_config) eventTwoHandlers),
       ([3, 4] : List HandlerKind).map (fun k =>
         (get_config_for_handler_kls twoHandlerRegistry k eventTwoHandlers ⟨[job00]⟩).map
           (fun job_config => Sig.mk k eventTwoHandlers (some job_config)))) :=
  c2_results_reflect_last_handler twoHandlerRegistry (fun _ => true) eventTwoHandlers
    ⟨[job00]⟩ 3 [4] (by decide) (by decide) (by decide)

/-! ## Claims about `process_message` -/

/-- Counterexample to claim C4: a message that passes the topic filter,
pre-check and privacy gate, is not an installation or label-added event, and
for which `process_jobs` yields the empty list — `process_message` returns the
empty list, not a single synthetic success `TaskResults`. -/
theorem c4_counterexample :
    process_message directRegistry (fun _ => true) ctxNoTriggerMatch none = ([], []) ∧
      (process_message directRegistry (fun _ => true) ctxNoTriggerMatch none).1.length ≠ 1 := by
  exact ⟨by decide, by decide⟩

/-- Claim C4, amended: for a message that passes the topic filter, pre-check
and privacy gate and is not an installation or label-added event,
`process_message` passes the `process_jobs` result through unchanged; in
particular, when `process_jobs` yields the empty list, `process_message`
returns the empty list.  The synthetic success `TaskResults` (message
"Job created.", no job config) is produced only on the installation and
label-added paths, where `process_jobs` is bypassed. -/
theorem c4_empty_dispatch_amended (R : Registry) (check : List JobConfig → Bool)
    (ctx : MessageCtx) (topic : Option String) (event : Event)
    (htopic : topic = none ∨ ∃ t, topic = some t ∧ some t ∈ ctx.topics)
    (hev : ctx.parsedEvent = some event)
    (hpre : ctx.preCheckOk = true)
    (hpriv : ¬(ctx.hasProject = true ∧ ctx.isPrivate = true ∧ ¬(ctx.namespaceEnabled = true)))
    (hki : ¬(event.kind = .installation))
    (hkl : ¬(event.kind = .pullRequestLabelPagure))
    (hempty : (process_jobs R check event).1 = []) :
    (process_message R check ctx topic).1 = [] := by
  have hbody : process_message_body R check ctx =
      ((process_jobs R check event).1, (process_jobs R check event).2) := by
    unfold process_message_body
    simp only [hev]
    rw [if_neg (by simp [hpre]), if_neg hpriv]
    rw [if_neg hki, if_neg hkl]
  have hmsg : process_message R check ctx topic = process_message_body R check ctx := by
    unfold process_message
    rcases htopic with hnone | ⟨t, ht, hmem⟩
    · rw [hnone]
    · simp only [ht]
      rw [if_pos hmem]
  rw [hmsg, hbody, hempty]

/-- Witness for the amended claim C4. -/
theorem c4_empty_dispatch_amended_witness :
    (process_message directRegistry (fun _ => true) ctxNoTriggerMatch none).1 = [] :=
  c4_empty_dispatch_amended directRegistry (fun _ => true) ctxNoTriggerMatch none
    eventNoTriggerMatch (Or.inl rfl) (by decide) (by decide) (by decide) (by decide)
    (by decide) (by decide)

/-! ## Helper lemmas about the status reporter -/

/-- The character data of a string append is the append of the data. -/
theorem string_data_append (a b : String) : (a ++ b).data = a.data ++ b.data := rfl

/-- Closed form of the pull-request mirror. -/
theorem set_pull_request_status_eq (env : StatusEnv) (rep : StatusReporter)
    (check_name description url : String) (state : CommitStatus) :
    set_pull_request_status env rep check_name description url state =
      (if rep.pr_id ≠ none ∧ env.prHasSetFlag = true ∧ env.prHeadCommit = rep.commit_sha
       then [Action.setFlag check_name description url state] else []) := by
  obtain ⟨sha, pid⟩ := rep
  cases pid with
  | none => simp [set_pull_request_status]
  | some p => simp [set_pull_request_status]

/-- The flag write occurs in the mirror exactly under the guard conditions. -/
theorem setFlag_mem_mirror (env : StatusEnv) (rep : StatusReporter)
    (check_name description url : String) (state : CommitStatus) :
    Action.setFlag check_name description url state ∈
        set_pull_request_status env rep check_name description url state ↔
      (rep.pr_id ≠ none ∧ env.prHasSetFlag = true ∧ env.prHeadCommit = rep.commit_sha) := by
  rw [set_pull_request_status_eq]
  split_ifs with hc
  · simp [hc]
  · simp [hc]

/-- The fallback comment body contains the check name, the state name, the
(url or the "not provided" marker) and the description. -/
theorem commit_comment_body_parts (state : CommitStatus) (description check_name u : String) :
    (∃ p s, (commit_comment_body state description check_name u).data
        = p ++ (check_name.data ++ s)) ∧
    (∃ p s, (commit_comment_body state description check_name u).data
        = p ++ (state.name.data ++ s)) ∧
    (∃ p s, (commit_comment_body state description check_name u).data
        = p ++ ((if u = "" then "not provided" else u).data ++ s)) ∧
    (∃ p s, (commit_comment_body state description check_name u).data
        = p ++ (description.data ++ s)) := by
  refine ⟨⟨"- name: ".data,
      ("\n" ++ "- state: " ++ state.name ++ "\n" ++ "- url: " ++
        (if u = "" then "not provided" else u) ++ "\n\n" ++ description).data, ?_⟩,
    ⟨("- name: " ++ check_name ++ "\n" ++ "- state: ").data,
      ("\n" ++ "- url: " ++ (if u = "" then "not provided" else u) ++ "\n\n" ++
        description).data, ?_⟩,
    ⟨("- name: " ++ check_name ++ "\n" ++ "- state: " ++ state.name ++ "\n" ++ "- url: ").data,
      ("\n\n" ++ description).data, ?_⟩,
    ⟨("- name: " ++ check_name ++ "\n" ++ "- state: " ++ state.name ++ "\n" ++ "- url: " ++
        (if u = "" then "not provided" else u) ++ "\n\n").data, [], ?_⟩⟩ <;>
  simp [commit_comment_body, string_data_append, List.append_assoc]

/-! ## Claims about the status reporter -/

/-- Claim C7: when the commit-status post fails with the GitLab create error,
`set_status` ignores code 400 (no comment fallback, no exception), degrades to
a commit comment containing name/state/url/description for codes 403 and 404
(no exception), and re-raises the error for every other code. -/
theorem c7_gitlab_create_error_handling (env : StatusEnv) (rep : StatusReporter)
    (state : CommitStatus) (description check_name url : String) (code : Nat)
    (henv : env.postOutcome = .gitlabCreateError code) :
    (code = 400 →
      (set_status env rep state description check_name url).2 = none ∧
      ∀ b, Action.commitComment rep.commit_sha b ∉
        (set_status env rep state description check_name url).1) ∧
    ((code = 403 ∨ code = 404) →
      (set_status env rep state description check_name url).2 = none ∧
      Action.commitComment rep.commit_sha
          (commit_comment_body state description check_name
            (if url = "" ∧ env.projectIsPagure = true then
              "https://wiki.centos.org/Manuals/ReleaseNotes/CentOSStream" else url)) ∈
        (set_status env rep state description check_name url).1 ∧
      (∃ p s, (commit_comment_body state description check_name
          (if url = "" ∧ env.projectIsPagure = true then
            "https://wiki.centos.org/Manuals/ReleaseNotes/CentOSStream" else url)).data
        = p ++ (check_name.data ++ s)) ∧
      (∃ p s, (commit_comment_body state description check_name
          (if url = "" ∧ env.projectIsPagure = true then
            "https://wiki.centos.org/Manuals/ReleaseNotes/CentOSStream" else url)).data
        = p ++ (state.name.data ++ s)) ∧
      (∃ p s, (commit_comment_body state description check_name
          (if url = "" ∧ env.projectIsPagure = true then
            "https://wiki.centos.org/Manuals/ReleaseNotes/CentOSStream" else url)).data
        = p ++ (description.data ++ s))) ∧
    (¬(code = 400) ∧ ¬(code = 403) ∧ ¬(code = 404) →
      (set_status env rep state description check_name url).2 = some code) := by
  have hrun : set_status env rep state description check_name url =
      (let url := if url = "" ∧ env.projectIsPagure = true then
          "https://wiki.centos.org/Manuals/ReleaseNotes/CentOSStream" else url
       let attempt := Action.setCommitStatus rep.commit_sha state url description check_name
       let fallback := if code ≠ 400 then
           [Action.commitComment rep.commit_sha
             (commit_comment_body state description check_name url)]
         else []
       if code ∉ ([400, 403, 404] : List Nat) then (attempt :: fallback, some code)
       else (attempt :: (fallback ++
         set_pull_request_status env rep check_name description url state), none)) := by
    unfold set_status
    simp only [henv]
  refine ⟨?_, ?_, ?_⟩
  · rintro rfl
    rw [hrun]
    simp only [if_neg (by decide : ¬((400 : Nat) ≠ 400)), List.nil_append,
      if_neg (by decide : ¬((400 : Nat) ∉ ([400, 403, 404] : List Nat)))]
    refine ⟨by trivial, ?_⟩
    intro b
    rw [set_pull_request_status_eq]
    split_ifs with hc <;> simp
  · intro hcode
    rw [hrun]
    have h400 : code ≠ 400 := by rcases hcode with rfl | rfl <;> decide
    have hin : ¬(code ∉ ([400, 403, 404] : List Nat)) := by
      rcases hcode with rfl | rfl <;> decide
    simp only [if_pos h400, if_neg hin]
    obtain ⟨hp1, hp2, hp3, hp4⟩ := commit_comment_body_parts state description check_name
      (if url = "" ∧ env.projectIsPagure = true then
        "https://wiki.centos.org/Manuals/ReleaseNotes/CentOSStream" else url)
    exact ⟨by trivial, by simp, hp1, hp2, hp4⟩
  · rintro ⟨h1, h2, h3⟩
    rw [hrun]
    have hout : code ∉ ([400, 403, 404] : List Nat) := by simp [h1, h2, h3]
    simp only [if_pos hout]

/-- Witness for claim C7 at code 403: the error is swallowed and the comment
fallback is posted. -/
theorem c7_gitlab_create_error_handling_witness :
    (set_status env403 repAbc stSuccess "d" "check" "u").2 = none ∧
    Action.commitComment repAbc.commit_sha
        (commit_comment_body stSuccess "d" "check"
          (if "u" = "" ∧ env403.projectIsPagure = true then
            "https://wiki.centos.org/Manuals/ReleaseNotes/CentOSStream" else "u")) ∈
      (set_status env403 repAbc stSuccess "d" "check" "u").1 ∧
    (∃ p s, (commit_comment_body stSuccess "d" "check"
        (if "u" = "" ∧ env403.projectIsPagure = true then
          "https://wiki.centos.org/Manuals/ReleaseNotes/CentOSStream" else "u")).data
      = p ++ (("check" : String).data ++ s)) ∧
    (∃ p s, (commit_comment_body stSuccess "d" "check"
        (if "u" = "" ∧ env403.projectIsPagure = true then
          "https://wiki.centos.org/Manuals/ReleaseNotes/CentOSStream" else "u")).data
      = p ++ (stSuccess.name.data ++ s)) ∧
    (∃ p s, (commit_comment_body stSuccess "d" "check"
        (if "u" = "" ∧ env403.projectIsPagure = true then
          "https://wiki.centos.org/Manuals/ReleaseNotes/CentOSStream" else "u")).data
      = p ++ (("d" : String).data ++ s)) :=
  (c7_gitlab_create_error_handling env403 repAbc stSuccess "d" "check" "u" 403 rfl).2.1
    (Or.inl rfl)

/-- Counterexample to claim C8: with the commit-status post failing with code
500 and every mirror condition holding (a pull-request id is present, the PR
exposes `set_flag`, and its head commit equals the reported commit), the
exception is re-raised and the pull-request status mirror is *not* attempted:
no flag is written. -/
theorem c8_counterexample :
    set_status env500 repAbc stSuccess "d" "check" "u" =
        ([Action.setCommitStatus "abc" stSuccess "u" "d" "check",
          Action.commitComment "abc" (commit_comment_body stSuccess "d" "check" "u")],
         some 500) ∧
      repAbc.pr_id ≠ none ∧ env500.prHasSetFlag = true ∧
      env500.prHeadCommit = repAbc.commit_sha ∧
      Action.setFlag "check" "d" "u" stSuccess ∉
        (set_status env500 repAbc stSuccess "d" "check" "u").1 := by
  exact ⟨by decide, by decide, by decide, by decide, by decide⟩

/-- Claim C8, amended: the pull-request status mirror is attempted after the
commit-status attempt in every `set_status` call that returns normally
(success, queued-code 400 ignored, 403/404 comment fallback, GitHub-exception
comment fallback), and the flag is written exactly when a pull-request id is
present, the PR exposes the flag API and the PR head commit equals the
reported commit; but when the GitLab create error is re-raised the mirror is
not attempted and no flag is written. -/
theorem c8_mirror_amended (env : StatusEnv) (rep : StatusReporter) (state : CommitStatus)
    (description check_name url : String) :
    ((set_status env rep state description check_name url).2 = none →
      ∃ pre, (set_status env rep state description check_name url).1
        = pre ++ set_pull_request_status env rep check_name description
            (if url = "" ∧ env.projectIsPagure = true then
              "https://wiki.centos.org/Manuals/ReleaseNotes/CentOSStream" else url) state) ∧
    (Action.setFlag check_name description
        (if url = "" ∧ env.projectIsPagure = true then
          "https://wiki.centos.org/Manuals/ReleaseNotes/CentOSStream" else url) state ∈
        (set_status env rep state description check_name url).1 ↔
      ((set_status env rep state description check_name url).2 = none ∧
        rep.pr_id ≠ none ∧ env.prHasSetFlag = true ∧ env.prHeadCommit = rep.commit_sha)) := by
  rcases houtcome : env.postOutcome with _ | code | _
  · constructor
    · intro _
      refine ⟨[Action.setCommitStatus rep.commit_sha state
        (if url = "" ∧ env.projectIsPagure = true then
          "https://wiki.centos.org/Manuals/ReleaseNotes/CentOSStream" else url)
        description check_name], ?_⟩
      unfold set_status
      simp only [houtcome]
      rfl
    · unfold set_status
      simp only [houtcome]
      rw [set_pull_request_status_eq]
      by_cases hm : rep.pr_id ≠ none ∧ env.prHasSetFlag = true ∧
          env.prHeadCommit = rep.commit_sha
      · rw [if_pos hm]
        simp [hm]
      · rw [if_neg hm]
        simp [hm]
  · by_cases hin : code ∈ ([400, 403, 404] : List Nat)
    · constructor
      · intro _
        refine ⟨Action.setCommitStatus rep.commit_sha state
            (if url = "" ∧ env.projectIsPagure = true then
              "https://wiki.centos.org/Manuals/ReleaseNotes/CentOSStream" else url)
            description check_name ::
          (if code ≠ 400 then
            [Action.commitComment rep.commit_sha (commit_comment_body state description
              check_name (if url = "" ∧ env.projectIsPagure = true then
                "https://wiki.centos.org/Manuals/ReleaseNotes/CentOSStream" else url))]
          else []), ?_⟩
        unfold set_status
        simp only [houtcome]
        rw [if_neg (not_not_intro hin)]
        simp [List.append_assoc]
      · unfold set_status
        simp only [houtcome]
        rw [if_neg (not_not_intro hin)]
        rw [set_pull_request_status_eq]
        by_cases hm : rep.pr_id ≠ none ∧ env.prHasSetFlag = true ∧
            env.prHeadCommit = rep.commit_sha
        · rw [if_pos hm]
          by_cases hcode : code ≠ 400
          · rw [if_pos hcode]
            simp [hm]
          · rw [if_neg hcode]
            simp [hm]
        · rw [if_neg hm]
          by_cases hcode : code ≠ 400
          · rw [if_pos hcode]
            simp [hm]
          · rw [if_neg hcode]
            simp [hm]
    · constructor
      · intro habs
        exfalso
        revert habs
        unfold set_status
        simp only [houtcome]
        rw [if_pos hin]
        simp
      · unfold set_status
        simp only [houtcome]
        rw [if_pos hin]
        by_cases hcode : code ≠ 400
        · rw [if_pos hcode]
          simp
        · rw [if_neg hcode]
          simp
  · constructor
    · intro _
      refine ⟨[Action.setCommitStatus rep.commit_sha state
          (if url = "" ∧ env.projectIsPagure = true then
            "https://wiki.centos.org/Manuals/ReleaseNotes/CentOSStream" else url)
          description check_name,
        Action.commitComment rep.commit_sha (commit_comment_body state description check_name
          (if url = "" ∧ env.projectIsPagure = true then
            "https://wiki.centos.org/Manuals/ReleaseNotes/CentOSStream" else url))], ?_⟩
      unfold set_status
      simp only [houtcome]
      rfl
    · unfold set_status
      simp only [houtcome]
      rw [set_pull_request_status_eq]
      by_cases hm : rep.pr_id ≠ none ∧ env.prHasSetFlag = true ∧
          env.prHeadCommit = rep.commit_sha
      · rw [if_pos hm]
        simp [hm]
      · rw [if_neg hm]
        simp [hm]

/-- Witness for the amended claim C8: on a successful post with all mirror
conditions holding, the trace ends with the mirror. -/
theorem c8_mirror_amended_witness :
    ∃ pre, (set_status envOk repAbc stSuccess "d" "check" "u").1
      = pre ++ set_pull_request_status envOk repAbc "check" "d"
          (if "u" = "" ∧ envOk.projectIsPagure = true then
            "https://wiki.centos.org/Manuals/ReleaseNotes/CentOSStream" else "u") stSuccess :=
  (c8_mirror_amended envOk repAbc stSuccess "d" "check" "u").1 (by decide)

end PackitService


